import Mathlib

/-!
Shallow embedding of `validate.py` from the aggregreat repository: a
validator for Mongo-style aggregation pipelines.  Python values are
modelled by the inductive `PyVal`; each validation procedure raises
`AggregreatTypeError` on bad input, modelled here by `Except Err`.
The `Err` inductive has one constructor per raise site; the constructor
`indexError` models the uncaught Python `IndexError` raised by
`path_ref[0]` on an empty string (it is not an `AggregreatTypeError`).
-/

namespace Aggregreat

/-- Python runtime values relevant to the validator: the seven BSON
primitive kinds, lists, dicts (as ordered association lists, matching
Python dict insertion order), and `other` for any value of a type the
validator does not recognise (e.g. `datetime.date`, sets). -/
inductive PyVal : Type where
  | none : PyVal
  | bool : Bool → PyVal
  | int : Int → PyVal
  | float : Rat → PyVal
  | str : String → PyVal
  | datetime : PyVal
  | objectId : PyVal
  | list : List PyVal → PyVal
  | dict : List (PyVal × PyVal) → PyVal
  | other : PyVal

/-- One constructor per raise site of `validate.py`, named after the
spec's error taxonomy where a name exists, plus `indexError` for the
plain Python `IndexError` escaping `is_valid_path_reference`. -/
inductive Err : Type where
  | malformedKeys : Err
  | mixedKeys : Err
  | badExistsOperand : Err
  | badSizeOperand : Err
  | badNotOperand : Err
  | badNotArity : Err
  | badElemMatchOperand : Err
  | badListOperand : Err
  | unknownOperator : Err
  | operatorKeyInValueContext : Err
  | unsupportedValueType : Err
  | pathNotString : Err
  | nonStringKey : Err
  | badLogicalOperand : Err
  | queryNotAMapping : Err
  | pathRefNotString : Err
  | badPathReference : Err
  | indexError : Err
  | unrecognizedOption : Err
  | badPreserveOption : Err
  | missingPath : Err
  | projectionNotAMapping : Err
  | badIdentifierProjection : Err
  | mixedProjectionMode : Err
  | stageNotAMapping : Err
  | wrongArity : Err
  | unknownStageType : Err
  | notASequence : Err
deriving DecidableEq, Repr

/-- All constructors except `indexError` model a raised
`AggregreatTypeError`; `indexError` models Python's `IndexError`. -/
def Err.isAggregreatTypeError : Err → Bool
  | .indexError => false
  | _ => true

/-- `isinstance(v, str)`. -/
def isStr : PyVal → Bool
  | .str _ => true
  | _ => false

/-- `isinstance(v, bool)`. -/
def isBool : PyVal → Bool
  | .bool _ => true
  | _ => false

/-- `isinstance(v, int)`: Python `bool` is a subclass of `int`, so both
`bool` and `int` values pass. -/
def isInstInt : PyVal → Bool
  | .int _ => true
  | .bool _ => true
  | _ => false

/-- `isinstance(v, list)`. -/
def isList : PyVal → Bool
  | .list _ => true
  | _ => false

/-- `isinstance(v, dict)`. -/
def isDict : PyVal → Bool
  | .dict _ => true
  | _ => false

/-- Python `k == s` for a string literal `s`: true only when `k` is the
string `s` (values of other types compare unequal to a string). -/
def keyIs (k : PyVal) (s : String) : Bool :=
  match k with
  | .str t => t = s
  | _ => false

/-- `isinstance(key, str) and key and key[0] == "$"`: the key is a
non-empty string whose first character is the reserved sigil. -/
def isDollarKey : PyVal → Bool
  | .str s => !s.isEmpty && s.front = '$'
  | _ => false

/-- Python `v in [0, False]` (equality-based membership: `0 == False ==
0.0` holds across `int`/`bool`/`float`). -/
def isZeroOrFalse : PyVal → Bool
  | .int n => n = 0
  | .bool b => b = false
  | .float q => q = 0
  | _ => false

/-- Python `v in [1, True]` (equality-based membership: `1 == True ==
1.0` holds across `int`/`bool`/`float`). -/
def isOneOrTrue : PyVal → Bool
  | .int n => n = 1
  | .bool b => b = true
  | .float q => q = 1
  | _ => false

/-- `has_dollar_keys` (validate.py lines 32-50): raises `MalformedKeys`
when some key is not a string, `MixedKeys` when dollar keys and
non-dollar keys coexist; otherwise reports whether all keys carry the
sigil. -/
def has_dollar_keys (entries : List (PyVal × PyVal)) : Except Err Bool :=
  let keys := entries.map Prod.fst
  if !(keys.filter (fun k => !isStr k)).isEmpty then
    .error .malformedKeys
  else
    let dollar_keys := keys.filter (fun k => isStr k && isDollarKey k)
    if !dollar_keys.isEmpty then
      if dollar_keys.length ≠ entries.length then .error .mixedKeys
      else .ok true
    else .ok false

mutual

/-- `is_valid_bson` (validate.py lines 116-135): primitives pass, lists
and dollar-free dicts recurse, anything else is rejected. -/
def is_valid_bson (v : PyVal) : Except Err Unit :=
  match v with
  | .none => .ok ()
  | .bool _ => .ok ()
  | .int _ => .ok ()
  | .float _ => .ok ()
  | .str _ => .ok ()
  | .datetime => .ok ()
  | .objectId => .ok ()
  | .list xs => is_valid_bson_list xs
  | .dict entries =>
      match has_dollar_keys entries with
      | .error e => .error e
      | .ok true => .error .operatorKeyInValueContext
      | .ok false => is_valid_bson_values entries
  | .other => .error .unsupportedValueType

/-- The `for item in bson_value: is_valid_bson(item)` loop. -/
def is_valid_bson_list (xs : List PyVal) : Except Err Unit :=
  match xs with
  | [] => .ok ()
  | x :: rest =>
      match is_valid_bson x with
      | .error e => .error e
      | .ok () => is_valid_bson_list rest

/-- The `for value in bson_value.values(): is_valid_bson(value)` loop. -/
def is_valid_bson_values (entries : List (PyVal × PyVal)) : Except Err Unit :=
  match entries with
  | [] => .ok ()
  | (_, v) :: rest =>
      match is_valid_bson v with
      | .error e => .error e
      | .ok () => is_valid_bson_values rest

end

/-- `is_valid_path` (validate.py lines 137-143): a field path must be a
string; any string (including the empty string) passes. -/
def is_valid_path (path : PyVal) : Except Err Unit :=
  if isStr path then .ok () else .error .pathNotString

mutual

/-- `is_valid_condition` (validate.py lines 57-113): dispatch on the
operator key; `$not` requires a single-entry dict and recurses on that
entry, `$elemMatch` disambiguates by key discipline, comparisons check
a BSON value, `$in`/`$nin` check a list of BSON values. -/
def is_valid_condition (condition : PyVal × PyVal) : Except Err Unit :=
  match condition with
  | (key, value) =>
    if keyIs key "$exists" then
      if isBool value then .ok () else .error .badExistsOperand
    else if keyIs key "$size" then
      if isInstInt value then .ok () else .error .badSizeOperand
    else if keyIs key "$not" then
      match value with
      | .dict pairs =>
          match pairs with
          | [p] => is_valid_condition p
          | _ => .error .badNotArity
      | _ => .error .badNotOperand
    else if keyIs key "$elemMatch" then
      match value with
      | .dict pairs =>
          match has_dollar_keys pairs with
          | .error e => .error e
          | .ok true => is_valid_condition_pairs pairs
          | .ok false => is_valid_query (.dict pairs)
      | _ => .error .badElemMatchOperand
    else if keyIs key "$eq" || keyIs key "$ne" || keyIs key "$gt" ||
            keyIs key "$gte" || keyIs key "$lt" || keyIs key "$lte" then
      is_valid_bson value
    else if keyIs key "$in" || keyIs key "$nin" then
      match value with
      | .list items => is_valid_bson_list items
      | _ => .error .badListOperand
    else
      .error .unknownOperator

/-- The `for pair in value.items(): is_valid_condition(pair)` loop of
`check_elem_value`. -/
def is_valid_condition_pairs (pairs : List (PyVal × PyVal)) : Except Err Unit :=
  match pairs with
  | [] => .ok ()
  | p :: rest =>
      match is_valid_condition p with
      | .error e => .error e
      | .ok () => is_valid_condition_pairs rest

/-- `is_valid_criterion` (validate.py lines 146-172).  Note the source's
`return` statement sits INSIDE the `for pair in value.items()` loop, so
when the body is an all-dollar-key dict only the FIRST condition is
validated before the function returns successfully. -/
def is_valid_criterion (criterion : PyVal × PyVal) : Except Err Unit :=
  match criterion with
  | (key, value) =>
    if !isStr key then .error .nonStringKey
    else if keyIs key "$and" || keyIs key "$or" || keyIs key "$nor" then
      match value with
      | .list items => is_valid_query_list items
      | _ => .error .badLogicalOperand
    else
      match is_valid_path key with
      | .error e => .error e
      | .ok () =>
        match value with
        | .dict pairs =>
            match has_dollar_keys pairs with
            | .error e => .error e
            | .ok true =>
                match pairs with
                | p :: _ =>
                    -- loop body: validate the first pair, then `return`
                    match is_valid_condition p with
                    | .error e => .error e
                    | .ok () => .ok ()
                | [] => is_valid_bson (.dict pairs)  -- loop skipped: fall through
            | .ok false => is_valid_bson (.dict pairs)
        | _ => is_valid_bson value

/-- The `for item in value: is_valid_query(item)` loop for logical
operators. -/
def is_valid_query_list (items : List PyVal) : Except Err Unit :=
  match items with
  | [] => .ok ()
  | q :: rest =>
      match is_valid_query q with
      | .error e => .error e
      | .ok () => is_valid_query_list rest

/-- `is_valid_query` (validate.py lines 175-185): a dict whose entries
are all valid criteria. -/
def is_valid_query (query : PyVal) : Except Err Unit :=
  match query with
  | .dict pairs => is_valid_criterion_pairs pairs
  | _ => .error .queryNotAMapping

/-- The `for pair in key_value_pairs: is_valid_criterion(pair)` loop. -/
def is_valid_criterion_pairs (pairs : List (PyVal × PyVal)) : Except Err Unit :=
  match pairs with
  | [] => .ok ()
  | p :: rest =>
      match is_valid_criterion p with
      | .error e => .error e
      | .ok () => is_valid_criterion_pairs rest

end

/-- `is_valid_path_reference` (validate.py lines 190-201): a string
starting with the sigil, whose tail is handed to `is_valid_path`.  On
the empty string the subscript `path_ref[0]` raises an uncaught Python
`IndexError`, modelled by the `indexError` constructor. -/
def is_valid_path_reference (path_ref : PyVal) : Except Err Unit :=
  match path_ref with
  | .str s =>
      if s.isEmpty then .error .indexError
      else if !(s.front = '$') then .error .badPathReference
      else is_valid_path (.str (s.drop 1))
  | _ => .error .pathRefNotString

/-- The `for key, value in unwind_expression.items()` loop of
`is_valid_unwind_expression`, threading the `seen_path` flag. -/
def unwind_entries (entries : List (PyVal × PyVal)) (seen_path : Bool) :
    Except Err Unit :=
  match entries with
  | [] => if seen_path then .ok () else .error .missingPath
  | (key, value) :: rest =>
      if !(keyIs key "path" || keyIs key "includeArrayIndex" ||
           keyIs key "preserveNullAndEmptyArrays") then
        .error .unrecognizedOption
      else if keyIs key "path" then
        match is_valid_path_reference value with
        | .error e => .error e
        | .ok () => unwind_entries rest true
      else if keyIs key "includeArrayIndex" then
        match is_valid_path value with
        | .error e => .error e
        | .ok () => unwind_entries rest seen_path
      else
        if isBool value then unwind_entries rest seen_path
        else .error .badPreserveOption

/-- `is_valid_unwind_expression` (validate.py lines 204-228): a bare
path reference, or an options dict with exactly the keys `path`
(required), `includeArrayIndex` (string), `preserveNullAndEmptyArrays`
(boolean). -/
def is_valid_unwind_expression (unwind_expression : PyVal) : Except Err Unit :=
  match unwind_expression with
  | .dict entries => unwind_entries entries false
  | v => is_valid_path_reference v

/-- `is_valid_value_definition` (validate.py lines 232-233): a stub that
accepts everything (`pass`). -/
def is_valid_value_definition (_val_def : PyVal) : Except Err Unit :=
  .ok ()

/-- The `for key, value in projection.items()` loop of
`is_valid_projection`, threading the `seen_falsey_value` flag. -/
def projection_entries (entries : List (PyVal × PyVal))
    (seen_falsey_value : Bool) : Except Err Unit :=
  match entries with
  | [] => .ok ()
  | (key, value) :: rest =>
      match is_valid_path key with
      | .error e => .error e
      | .ok () =>
        if keyIs key "_id" then
          if !isZeroOrFalse value then .error .badIdentifierProjection
          else projection_entries rest seen_falsey_value
        else if isZeroOrFalse value then
          projection_entries rest true
        else if isOneOrTrue value then
          if seen_falsey_value then .error .mixedProjectionMode
          else projection_entries rest seen_falsey_value
        else
          match is_valid_value_definition value with
          | .error e => .error e
          | .ok () => projection_entries rest seen_falsey_value

/-- `is_valid_projection` (validate.py lines 235-256): `_id` may only be
excluded; an inclusion flag (`1`/`True`) is rejected when an exclusion
flag (`0`/`False`) was already seen on an earlier non-`_id` entry. -/
def is_valid_projection (projection : PyVal) : Except Err Unit :=
  match projection with
  | .dict entries => projection_entries entries false
  | _ => .error .projectionNotAMapping

/-- `is_valid_stage_type` (validate.py lines 260-266). -/
def is_valid_stage_type (stage_type : PyVal) : Except Err Unit :=
  if keyIs stage_type "$match" || keyIs stage_type "$unwind" ||
     keyIs stage_type "$project" then .ok ()
  else .error .unknownStageType

/-- `is_valid_stage` (validate.py lines 269-287): a single-entry dict
whose key is a recognised stage tag, dispatched to the matching
validator (the source's `elif` chain has no final `else`, so an
unmatched tag would fall through successfully; unreachable after
`is_valid_stage_type`). -/
def is_valid_stage (stage : PyVal) : Except Err Unit :=
  match stage with
  | .dict pairs =>
      match pairs with
      | [(stage_type, stage_spec)] =>
          match is_valid_stage_type stage_type with
          | .error e => .error e
          | .ok () =>
            if keyIs stage_type "$match" then is_valid_query stage_spec
            else if keyIs stage_type "$unwind" then
              is_valid_unwind_expression stage_spec
            else if keyIs stage_type "$project" then
              is_valid_projection stage_spec
            else .ok ()
      | _ => .error .wrongArity
  | _ => .error .stageNotAMapping

/-- The `for stage in pipeline: is_valid_stage(stage)` loop. -/
def pipeline_stages (stages : List PyVal) : Except Err Bool :=
  match stages with
  | [] => .ok true
  | s :: rest =>
      match is_valid_stage s with
      | .error e => .error e
      | .ok () => pipeline_stages rest

/-- `is_valid_pipeline` (validate.py lines 289-298): the outermost entry
point; a list of valid stages, returning `True` on success. -/
def is_valid_pipeline (pipeline : PyVal) : Except Err Bool :=
  match pipeline with
  | .list stages => pipeline_stages stages
  | _ => .error .notASequence

/-- The recognised option keys of an unwind options dict. -/
def allowedUnwindKey (k : PyVal) : Bool :=
  keyIs k "path" || keyIs k "includeArrayIndex" ||
    keyIs k "preserveNullAndEmptyArrays"

/-- A projection entry that passes the per-entry checks of
`is_valid_projection` without touching the inclusion/exclusion flag
logic: its key is a string, and if the key is `_id` its value is an
exclusion flag. -/
def cleanProjEntry (p : PyVal × PyVal) : Bool :=
  isStr p.1 && (!keyIs p.1 "_id" || isZeroOrFalse p.2)

mutual

/-- Some mapping reachable inside the value (itself included, descending
through list elements and dict values) has a key beginning with the
reserved sigil. -/
def hasDollarKeyAnywhere : PyVal → Bool
  | .list xs => hasDollarKeyAnywhereList xs
  | .dict entries =>
      entries.any (fun p => isDollarKey p.1) || hasDollarKeyAnywhereValues entries
  | _ => false

/-- `hasDollarKeyAnywhere` over the elements of a list. -/
def hasDollarKeyAnywhereList : List PyVal → Bool
  | [] => false
  | x :: rest => hasDollarKeyAnywhere x || hasDollarKeyAnywhereList rest

/-- `hasDollarKeyAnywhere` over the values of a dict. -/
def hasDollarKeyAnywhereValues : List (PyVal × PyVal) → Bool
  | [] => false
  | (_, v) :: rest => hasDollarKeyAnywhere v || hasDollarKeyAnywhereValues rest

end

/-! ## Unfolding lemmas -/

/-- Behaviour of the condition validator on a `$not` operator. -/
lemma not_condition_eq (v : PyVal) :
    is_valid_condition (.str "$not", v) =
      (match v with
       | .dict [p] => is_valid_condition p
       | .dict [] => .error .badNotArity
       | .dict (_ :: _ :: _) => .error .badNotArity
       | _ => .error .badNotOperand) := by
  cases v with
  | dict pairs =>
      cases pairs with
      | nil => rfl
      | cons p rest => cases rest <;> rfl
  | _ => rfl

/-- A string key differing from a literal is not that literal key. -/
lemma keyIs_str_false (s t : String) (h : s ≠ t) : keyIs (.str s) t = false := by
  simp [keyIs, h]

/-- The logical-operator test of the criterion validator fails on a
string key that is none of the three logical operators. -/
lemma criterion_not_logical (s : String)
    (h1 : s ≠ "$and") (h2 : s ≠ "$or") (h3 : s ≠ "$nor") :
    (keyIs (.str s) "$and" || keyIs (.str s) "$or" ||
      keyIs (.str s) "$nor") = false := by
  simp [keyIs_str_false s _ h1, keyIs_str_false s _ h2, keyIs_str_false s _ h3]

/-- Criterion validator, field key, non-empty dict body. -/
lemma criterion_field_cons (s : String) (p : PyVal × PyVal)
    (tail : List (PyVal × PyVal))
    (h1 : s ≠ "$and") (h2 : s ≠ "$or") (h3 : s ≠ "$nor") :
    is_valid_criterion (.str s, .dict (p :: tail)) =
      (match has_dollar_keys (p :: tail) with
       | .error e => .error e
       | .ok true =>
           (match is_valid_condition p with
            | .error e => .error e
            | .ok () => .ok ())
       | .ok false => is_valid_bson (.dict (p :: tail))) := by
  rw [is_valid_criterion.eq_2, criterion_not_logical s h1 h2 h3]
  rfl

/-- Criterion validator, field key, empty dict body. -/
lemma criterion_field_nil (s : String)
    (h1 : s ≠ "$and") (h2 : s ≠ "$or") (h3 : s ≠ "$nor") :
    is_valid_criterion (.str s, .dict []) = is_valid_bson (.dict []) := by
  rw [is_valid_criterion.eq_3, criterion_not_logical s h1 h2 h3]
  rfl

/-- Criterion validator, field key, list body. -/
lemma criterion_field_list (s : String) (items : List PyVal)
    (h1 : s ≠ "$and") (h2 : s ≠ "$or") (h3 : s ≠ "$nor") :
    is_valid_criterion (.str s, .list items) = is_valid_bson (.list items) := by
  rw [is_valid_criterion.eq_1, criterion_not_logical s h1 h2 h3]
  rfl

/-- Criterion validator, field key, body neither list nor dict. -/
lemma criterion_field_other (s : String) (v : PyVal)
    (h1 : s ≠ "$and") (h2 : s ≠ "$or") (h3 : s ≠ "$nor")
    (hl : ∀ a, v ≠ .list a) (hd : ∀ a, v ≠ .dict a) :
    is_valid_criterion (.str s, v) = is_valid_bson v := by
  rw [is_valid_criterion.eq_4 _ v (fun a ha => hl a ha) (fun a ha => hd a ha),
    criterion_not_logical s h1 h2 h3]
  rfl

/-- A key carrying the sigil is in particular a string. -/
lemma isStr_of_isDollarKey (k : PyVal) (h : isDollarKey k = true) :
    isStr k = true := by
  cases k <;> simp_all [isDollarKey, isStr]

/-- When every key is a string, the non-string-key filter of
`has_dollar_keys` is empty. -/
lemma hdk_no_malformed (entries : List (PyVal × PyVal))
    (hstr : ∀ p ∈ entries, isStr p.1 = true) :
    ((entries.map Prod.fst).filter (fun k => !isStr k)).isEmpty = true := by
  rw [List.isEmpty_iff, List.filter_eq_nil_iff]
  intro k hk
  obtain ⟨p, hp, rfl⟩ := List.mem_map.mp hk
  simp [hstr p hp]

/-- `has_dollar_keys` fails with `MalformedKeys` when some key is not a
string. -/
lemma hdk_malformed (entries : List (PyVal × PyVal))
    (h : ∃ p ∈ entries, isStr p.1 = false) :
    has_dollar_keys entries = .error .malformedKeys := by
  obtain ⟨p, hp, hps⟩ := h
  have hne : ((entries.map Prod.fst).filter (fun k => !isStr k)).isEmpty
      = false := by
    rw [List.isEmpty_eq_false]
    intro hnil
    have := List.filter_eq_nil_iff.mp hnil p.1 (List.mem_map_of_mem _ hp)
    simp [hps] at this
  simp [has_dollar_keys, hne]

/-- `has_dollar_keys` returns `True` on a non-empty mapping all of whose
keys carry the sigil. -/
lemma hdk_all_dollar (entries : List (PyVal × PyVal)) (hne : entries ≠ [])
    (h : ∀ p ∈ entries, isDollarKey p.1 = true) :
    has_dollar_keys entries = .ok true := by
  have hstr : ∀ p ∈ entries, isStr p.1 = true :=
    fun p hp => isStr_of_isDollarKey _ (h p hp)
  have h1 := hdk_no_malformed entries hstr
  have h2 : (entries.map Prod.fst).filter (fun k => isStr k && isDollarKey k)
      = entries.map Prod.fst := by
    rw [List.filter_eq_self]
    intro k hk
    obtain ⟨p, hp, rfl⟩ := List.mem_map.mp hk
    simp [hstr p hp, h p hp]
  have h3 : (entries.map Prod.fst).isEmpty = false := by
    rw [List.isEmpty_eq_false]
    simp [List.map_eq_nil_iff, hne]
  simp [has_dollar_keys, h1, h2, h3, List.length_map]

/-- `has_dollar_keys` returns `False` when no (string) key carries the
sigil. -/
lemma hdk_no_dollar (entries : List (PyVal × PyVal))
    (hstr : ∀ p ∈ entries, isStr p.1 = true)
    (h : ∀ p ∈ entries, isDollarKey p.1 = false) :
    has_dollar_keys entries = .ok false := by
  have h1 := hdk_no_malformed entries hstr
  have h2 : (entries.map Prod.fst).filter (fun k => isStr k && isDollarKey k)
      = [] := by
    rw [List.filter_eq_nil_iff]
    intro k hk
    obtain ⟨p, hp, rfl⟩ := List.mem_map.mp hk
    simp [h p hp]
  simp [has_dollar_keys, h1, h2]

/-- `has_dollar_keys` fails with `MixedKeys` when sigil keys and
non-sigil string keys coexist. -/
lemma hdk_mixed (entries : List (PyVal × PyVal))
    (hstr : ∀ p ∈ entries, isStr p.1 = true)
    (hyes : ∃ p ∈ entries, isDollarKey p.1 = true)
    (hno : ∃ p ∈ entries, isDollarKey p.1 = false) :
    has_dollar_keys entries = .error .mixedKeys := by
  obtain ⟨p, hp, hpd⟩ := hyes
  obtain ⟨q, hq, hqd⟩ := hno
  have h1 := hdk_no_malformed entries hstr
  have h2 : ((entries.map Prod.fst).filter
      (fun k => isStr k && isDollarKey k)).isEmpty = false := by
    rw [List.isEmpty_eq_false]
    intro hnil
    have : p.1 ∈ (entries.map Prod.fst).filter
        (fun k => isStr k && isDollarKey k) :=
      List.mem_filter.mpr ⟨List.mem_map_of_mem _ hp,
        by simp [hstr p hp, hpd]⟩
    rw [hnil] at this
    cases this
  have h3 : ((entries.map Prod.fst).filter
        (fun k => isStr k && isDollarKey k)).length ≠ entries.length := by
    intro hlen
    rw [← List.length_map entries Prod.fst] at hlen
    have := List.filter_length_eq_length.mp hlen q.1 (List.mem_map_of_mem _ hq)
    simp [hqd] at this
  simp [has_dollar_keys, h1, h2, h3]

/-- If `has_dollar_keys` reports `False`, no key carries the sigil. -/
lemma hdk_ok_false_inv (entries : List (PyVal × PyVal))
    (h : has_dollar_keys entries = .ok false) :
    ∀ p ∈ entries, isDollarKey p.1 = false := by
  intro p hp
  by_contra hd
  rw [Bool.not_eq_false] at hd
  have hstrp : isStr p.1 = true := isStr_of_isDollarKey _ hd
  have hmem : p.1 ∈ (entries.map Prod.fst).filter
      (fun k => isStr k && isDollarKey k) :=
    List.mem_filter.mpr ⟨List.mem_map_of_mem _ hp, by simp [hstrp, hd]⟩
  have h2 : ((entries.map Prod.fst).filter
      (fun k => isStr k && isDollarKey k)).isEmpty = false := by
    rw [List.isEmpty_eq_false]
    intro hnil
    rw [hnil] at hmem
    cases hmem
  by_cases h1 : ((entries.map Prod.fst).filter
      (fun k => !isStr k)).isEmpty = true
  · simp [has_dollar_keys, h1, h2] at h
    split at h <;> simp_all
  · rw [Bool.not_eq_true] at h1
    simp [has_dollar_keys, h1] at h

/-! ## Claims -/

/-- C10: for every boolean value `b`, validating the condition
`("$size", b)` succeeds, because Python booleans are a subclass of
`int` and hence pass the `isinstance(value, int)` check of the `$size`
operator. -/
theorem claim_C10 :
    ∀ b : Bool,
      is_valid_condition (.str "$size", .bool b) = .ok () ∧
      isInstInt (.bool b) = true := by
  intro b; cases b <;> exact ⟨rfl, rfl⟩

/-- C2 (code bug): the source's `return` sits inside the
`for pair in value.items()` loop of `is_valid_criterion`, so only the
first condition of an all-operator-key body is validated: the criterion
`("age", {"$gte": 21, "$bogus": 1})` is accepted even though its second
entry, taken alone, fails with `UnknownOperator`, and even though Key
Discipline classifies the body `AllOperatorKeys`. -/
theorem claim_C2 :
    is_valid_criterion
        (.str "age", .dict [(.str "$gte", .int 21), (.str "$bogus", .int 1)]) =
      .ok () ∧
    is_valid_condition (.str "$bogus", .int 1) = .error .unknownOperator ∧
    has_dollar_keys [(.str "$gte", .int 21), (.str "$bogus", .int 1)] =
      .ok true :=
  ⟨rfl, rfl, rfl⟩

/-- C6: a `$not` condition validates successfully iff its operand is a
mapping with exactly one entry and that entry is itself a valid
condition; a mapping operand of any other arity fails with
`BadNotArity`; in particular `("$not", {"$size": 2})` succeeds and
`("$not", {"$size": 2, "$exists": True})` fails with `BadNotArity`. -/
theorem claim_C6 :
    (∀ v : PyVal,
        is_valid_condition (.str "$not", v) = .ok () ↔
          ∃ p, v = .dict [p] ∧ is_valid_condition p = .ok ()) ∧
    (∀ pairs : List (PyVal × PyVal), pairs.length ≠ 1 →
        is_valid_condition (.str "$not", .dict pairs) = .error .badNotArity) ∧
    is_valid_condition (.str "$not", .dict [(.str "$size", .int 2)]) =
      .ok () ∧
    is_valid_condition
        (.str "$not",
          .dict [(.str "$size", .int 2), (.str "$exists", .bool true)]) =
      .error .badNotArity := by
  refine ⟨?_, ?_, rfl, rfl⟩
  · intro v
    rw [not_condition_eq]
    cases v with
    | dict pairs =>
        cases pairs with
        | nil => simp
        | cons p rest => cases rest <;> simp
    | _ => simp
  · intro pairs h
    rw [not_condition_eq]
    cases pairs with
    | nil => rfl
    | cons p rest =>
        cases rest with
        | nil => simp at h
        | cons q rest2 => rfl

/-- C6 witness: the second conjunct applied to the concrete three-entry
operand of a `$not` condition. -/
theorem claim_C6_witness :
    is_valid_condition
        (.str "$not",
          .dict [(.str "$size", .int 2), (.str "$exists", .bool true),
                 (.str "$eq", .int 7)]) =
      .error .badNotArity :=
  claim_C6.2.1
    [(.str "$size", .int 2), (.str "$exists", .bool true),
     (.str "$eq", .int 7)] (by decide)

/-- C4: the Key Discipline Checker fails with `MalformedKeys` on any
non-string key; otherwise returns `AllOperatorKeys` (`True`) on a
non-empty mapping whose keys all begin with `$`, `NoOperatorKeys`
(`False`) when no key begins with `$` (the empty mapping included), and
fails with `MixedKeys` when sigil and non-sigil keys coexist — the
mapping being modelled as an arbitrary ordered entry list, the results
hold regardless of key order. -/
theorem claim_C4 :
    ∀ entries : List (PyVal × PyVal),
      ((∃ p ∈ entries, isStr p.1 = false) →
        has_dollar_keys entries = .error .malformedKeys) ∧
      (entries ≠ [] → (∀ p ∈ entries, isDollarKey p.1 = true) →
        has_dollar_keys entries = .ok true) ∧
      ((∀ p ∈ entries, isStr p.1 = true) →
        (∀ p ∈ entries, isDollarKey p.1 = false) →
        has_dollar_keys entries = .ok false) ∧
      ((∀ p ∈ entries, isStr p.1 = true) →
        (∃ p ∈ entries, isDollarKey p.1 = true) →
        (∃ p ∈ entries, isDollarKey p.1 = false) →
        has_dollar_keys entries = .error .mixedKeys) :=
  fun entries =>
    ⟨hdk_malformed entries, hdk_all_dollar entries,
     hdk_no_dollar entries, hdk_mixed entries⟩

/-- C4 witness: the four classifications at concrete mappings. -/
theorem claim_C4_witness :
    has_dollar_keys [((.int 1 : PyVal), (.none : PyVal))] =
      .error .malformedKeys ∧
    has_dollar_keys [(.str "$a", .int 1), (.str "$b", .int 2)] = .ok true ∧
    has_dollar_keys ([] : List (PyVal × PyVal)) = .ok false ∧
    has_dollar_keys [(.str "$a", .int 1), (.str "b", .int 2)] =
      .error .mixedKeys :=
  ⟨(claim_C4 _).1 (by decide),
   (claim_C4 _).2.1 (List.cons_ne_nil _ _) (by decide),
   (claim_C4 _).2.2.1 (by decide) (by decide),
   (claim_C4 _).2.2.2 (by decide) (by decide) (by decide)⟩

/-- Mutual induction: a value accepted by `is_valid_bson` contains no
mapping with a sigil key at any depth. -/
lemma bson_ok_no_dollar :
    ∀ v, is_valid_bson v = .ok () → hasDollarKeyAnywhere v = false := by
  intro v
  refine is_valid_bson.induct
    (fun v => is_valid_bson v = .ok () → hasDollarKeyAnywhere v = false)
    (fun entries => is_valid_bson_values entries = .ok () →
      hasDollarKeyAnywhereValues entries = false)
    (fun xs => is_valid_bson_list xs = .ok () →
      hasDollarKeyAnywhereList xs = false)
    ?_ ?_ ?_ ?_ ?_ ?_ ?_ ?_ ?_ ?_ ?_ ?_ ?_ ?_ ?_ ?_ ?_ ?_ v
  · intro _; rfl
  · intro _ _; rfl
  · intro _ _; rfl
  · intro _ _; rfl
  · intro _ _; rfl
  · intro _; rfl
  · intro _; rfl
  · intro xs ih h
    rw [is_valid_bson.eq_8] at h
    rw [hasDollarKeyAnywhere.eq_1]
    exact ih h
  · intro entries e he h
    rw [is_valid_bson.eq_9, he] at h
    simp at h
  · intro entries he h
    rw [is_valid_bson.eq_9, he] at h
    simp at h
  · intro entries he ih2 h
    rw [is_valid_bson.eq_9, he] at h
    simp only [] at h
    rw [hasDollarKeyAnywhere.eq_2]
    have h1 : entries.any (fun p => isDollarKey p.1) = false :=
      List.any_eq_false.mpr
        (by intro p hp; simp [hdk_ok_false_inv entries he p hp])
    simp [h1, ih2 h]
  · intro h
    rw [is_valid_bson.eq_10] at h
    simp at h
  · intro _; rfl
  · intro x rest e hx ih1 h
    rw [is_valid_bson_list.eq_2, hx] at h
    simp at h
  · intro x rest hx ih1 ih3 h
    rw [is_valid_bson_list.eq_2, hx] at h
    simp only [] at h
    rw [hasDollarKeyAnywhereList.eq_2]
    simp [ih1 hx, ih3 h]
  · intro _; rfl
  · intro k v2 rest e hv ih1 h
    rw [is_valid_bson_values.eq_2, hv] at h
    simp at h
  · intro k v2 rest hv ih1 ih2 h
    rw [is_valid_bson_values.eq_2, hv] at h
    simp only [] at h
    rw [hasDollarKeyAnywhereValues.eq_2]
    simp [ih1 hv, ih2 h]

/-- C5: every value accepted by the Value Classifier contains no mapping
(at any nesting depth, itself included) with a key beginning with the
reserved sigil; and every non-empty mapping whose keys all begin with
the sigil is rejected with `OperatorKeyInValueContext`. -/
theorem claim_C5 :
    (∀ v, is_valid_bson v = .ok () → hasDollarKeyAnywhere v = false) ∧
    (∀ entries : List (PyVal × PyVal), entries ≠ [] →
        (∀ p ∈ entries, isDollarKey p.1 = true) →
        is_valid_bson (.dict entries) = .error .operatorKeyInValueContext) := by
  refine ⟨bson_ok_no_dollar, ?_⟩
  intro entries hne hall
  rw [is_valid_bson.eq_9, hdk_all_dollar entries hne hall]

/-- C5 witness: a nested accepted value has no sigil keys anywhere, and
the all-sigil mapping of a comparison body is rejected. -/
theorem claim_C5_witness :
    hasDollarKeyAnywhere
        (.dict [(.str "a", .list [.int 1, .dict [(.str "b", .none)]])]) =
      false ∧
    is_valid_bson (.dict [(.str "$gte", .int 3)]) =
      .error .operatorKeyInValueContext :=
  ⟨claim_C5.1 _ rfl, claim_C5.2 _ (List.cons_ne_nil _ _) (by decide)⟩

/-- C3 counterexample: the claim states that the one-character string
`"$"` fails and that the empty string fails with the typed
`BadPathReference` error; in the code `"$"` succeeds (the tail handed to
`is_valid_path` is the empty string, which is a string and passes) and
`""` escapes with an uncaught Python `IndexError` from `path_ref[0]`. -/
theorem claim_C3_cex :
    is_valid_path_reference (.str "$") = .ok () ∧
    is_valid_path_reference (.str "") = .error .indexError ∧
    Err.indexError ≠ Err.badPathReference :=
  ⟨rfl, rfl, by decide⟩

/-- C3 (amended): for a non-empty string operand, path-reference
validation succeeds iff the string begins with the reserved sigil `$`
(the path after the sigil may be empty, so `"$"` succeeds); a non-empty
string not beginning with `$` fails with the typed `BadPathReference`
error; the empty string raises an untyped `IndexError` instead of the
typed error. -/
theorem claim_C3 :
    (∀ s : String, s.isEmpty = false →
        (is_valid_path_reference (.str s) = .ok () ↔ s.front = '$')) ∧
    (∀ s : String, s.isEmpty = false → s.front ≠ '$' →
        is_valid_path_reference (.str s) = .error .badPathReference) ∧
    (is_valid_path_reference (.str "") = .error .indexError ∧
      Err.isAggregreatTypeError .indexError = false) := by
  refine ⟨?_, ?_, rfl, rfl⟩
  · intro s hs
    by_cases hf : s.front = '$' <;>
      simp [is_valid_path_reference, hs, hf, is_valid_path, isStr]
  · intro s hs hf
    simp [is_valid_path_reference, hs, hf]

/-- C3 witness: the amended characterisation applied to the concrete
strings `"$x"` (accepted) and `"name"` (rejected with
`BadPathReference`). -/
theorem claim_C3_witness :
    is_valid_path_reference (.str "$x") = .ok () ∧
    is_valid_path_reference (.str "name") = .error .badPathReference :=
  ⟨(claim_C3.1 "$x" rfl).mpr (by decide),
   claim_C3.2.1 "name" rfl (by decide)⟩

/-- C7 counterexample: the claim states that a criterion whose key is
the empty string is rejected; in the code `is_valid_path` only checks
that the key is a string, so the criterion `("", True)` is accepted. -/
theorem claim_C7_cex :
    is_valid_criterion (.str "", .bool true) = .ok () := rfl

/-- C7 (amended): a non-logical-operator criterion key is validated only
as a string (not as a non-empty string): the validation result does not
depend on which string the key is — every string key, including the
empty string and dotted paths, is accepted uninterpreted whenever its
body is valid. -/
theorem claim_C7 :
    (∀ (s₁ s₂ : String) (v : PyVal),
        s₁ ≠ "$and" → s₁ ≠ "$or" → s₁ ≠ "$nor" →
        s₂ ≠ "$and" → s₂ ≠ "$or" → s₂ ≠ "$nor" →
        is_valid_criterion (.str s₁, v) = is_valid_criterion (.str s₂, v)) ∧
    (∀ (s : String) (v : PyVal),
        s ≠ "$and" → s ≠ "$or" → s ≠ "$nor" → isDict v = false →
        (is_valid_criterion (.str s, v) = .ok () ↔
          is_valid_bson v = .ok ())) := by
  constructor
  · intro s₁ s₂ v h1 h2 h3 h4 h5 h6
    cases v with
    | list items =>
        rw [criterion_field_list s₁ items h1 h2 h3,
          criterion_field_list s₂ items h4 h5 h6]
    | dict pairs =>
        cases pairs with
        | nil =>
            rw [criterion_field_nil s₁ h1 h2 h3, criterion_field_nil s₂ h4 h5 h6]
        | cons p tail =>
            rw [criterion_field_cons s₁ p tail h1 h2 h3,
              criterion_field_cons s₂ p tail h4 h5 h6]
    | _ =>
        rw [criterion_field_other s₁ _ h1 h2 h3 (fun a h => by cases h)
            (fun a h => by cases h),
          criterion_field_other s₂ _ h4 h5 h6 (fun a h => by cases h)
            (fun a h => by cases h)]
  · intro s v h1 h2 h3 hd
    cases v with
    | dict pairs => simp [isDict] at hd
    | list items => rw [criterion_field_list s items h1 h2 h3]
    | _ =>
        rw [criterion_field_other s _ h1 h2 h3 (fun a h => by cases h)
          (fun a h => by cases h)]

/-- C7 witness: the amended claim applied to the empty string and a
dotted path as keys over the concrete body `3`. -/
theorem claim_C7_witness :
    is_valid_criterion (.str "", .int 3) =
      is_valid_criterion (.str "a.b.c", .int 3) ∧
    (is_valid_criterion (.str "name", .int 5) = .ok () ↔
      is_valid_bson (.int 5) = .ok ()) :=
  ⟨claim_C7.1 "" "a.b.c" (.int 3) (by decide) (by decide) (by decide)
      (by decide) (by decide) (by decide),
   claim_C7.2 "name" (.int 5) (by decide) (by decide) (by decide) rfl⟩

/-- The stage loop succeeds (with `True`) iff every stage validates. -/
lemma pipeline_stages_ok_iff (stages : List PyVal) :
    pipeline_stages stages = .ok true ↔
      ∀ s ∈ stages, is_valid_stage s = .ok () := by
  induction stages with
  | nil => simp [pipeline_stages]
  | cons s rest ih =>
      simp only [pipeline_stages]
      cases hs : is_valid_stage s with
      | error e => simp [hs]
      | ok u => cases u; simp [hs, ih]

/-- The stage loop surfaces the first failing stage's error. -/
lemma pipeline_stages_first_error (pre : List PyVal) :
    ∀ (s : PyVal) (post : List PyVal) (e : Err),
      (∀ t ∈ pre, is_valid_stage t = .ok ()) → is_valid_stage s = .error e →
      pipeline_stages (pre ++ s :: post) = .error e := by
  induction pre with
  | nil =>
      intro s post e _ hs
      simp only [List.nil_append, pipeline_stages, hs]
  | cons t rest ih =>
      intro s post e hpre hs
      have ht : is_valid_stage t = .ok () := hpre t (List.mem_cons_self t rest)
      simp only [List.cons_append, pipeline_stages, ht]
      exact ih s post e (fun u hu => hpre u (List.mem_cons_of_mem t hu)) hs

/-- C9: the Pipeline Validator fails with `NotASequence` on any
non-list input; on a list it validates the stages in order, surfacing
the first failure, and returns boolean `True` exactly when every stage
is valid; the empty list is accepted. -/
theorem claim_C9 :
    (∀ v : PyVal, isList v = false →
        is_valid_pipeline v = .error .notASequence) ∧
    (∀ stages : List PyVal,
        is_valid_pipeline (.list stages) = .ok true ↔
          ∀ s ∈ stages, is_valid_stage s = .ok ()) ∧
    (∀ (pre : List PyVal) (s : PyVal) (post : List PyVal) (e : Err),
        (∀ t ∈ pre, is_valid_stage t = .ok ()) →
        is_valid_stage s = .error e →
        is_valid_pipeline (.list (pre ++ s :: post)) = .error e) ∧
    is_valid_pipeline (.list []) = .ok true := by
  refine ⟨?_, ?_, ?_, rfl⟩
  · intro v hv
    cases v <;> first
      | rfl
      | simp [isList] at hv
  · intro stages
    exact pipeline_stages_ok_iff stages
  · intro pre s post e hpre hs
    exact pipeline_stages_first_error pre s post e hpre hs

/-- C9 witness: a dict is not a sequence; a one-element list whose
stage is not a mapping surfaces that stage's error; a concrete
one-stage match pipeline validates. -/
theorem claim_C9_witness :
    is_valid_pipeline (.dict []) = .error .notASequence ∧
    is_valid_pipeline (.list [.int 3]) = .error .stageNotAMapping ∧
    is_valid_pipeline
        (.list [.dict [(.str "$match", .dict [(.str "age",
          .dict [(.str "$gte", .int 21)])])]]) = .ok true :=
  ⟨claim_C9.1 _ rfl,
   claim_C9.2.2.1 [] (.int 3) [] .stageNotAMapping
     (fun t ht => absurd ht (List.not_mem_nil t)) rfl,
   (claim_C9.2.1 _).mpr (by
     intro s hs
     rw [List.mem_singleton.mp hs]
     rfl)⟩

/-- A key equals the literal string `s` iff it is that string value. -/
lemma keyIs_true_iff (k : PyVal) (s : String) : keyIs k s = true ↔ k = .str s := by
  cases k <;> simp [keyIs]

/-- Full characterisation of the unwind options loop: it succeeds iff
every key is recognised, a `path` key occurs (unless the flag was
already set), every `path` value is a valid path reference, every
`includeArrayIndex` value is a string, and every
`preserveNullAndEmptyArrays` value is a boolean. -/
lemma unwind_entries_ok_iff (entries : List (PyVal × PyVal)) :
    ∀ seen : Bool,
      unwind_entries entries seen = .ok () ↔
        ((∀ p ∈ entries, allowedUnwindKey p.1 = true) ∧
         (seen = true ∨ ∃ p ∈ entries, keyIs p.1 "path" = true) ∧
         (∀ p ∈ entries, keyIs p.1 "path" = true →
            is_valid_path_reference p.2 = .ok ()) ∧
         (∀ p ∈ entries, keyIs p.1 "includeArrayIndex" = true →
            isStr p.2 = true) ∧
         (∀ p ∈ entries, keyIs p.1 "preserveNullAndEmptyArrays" = true →
            isBool p.2 = true)) := by
  induction entries with
  | nil => intro seen; cases seen <;> simp [unwind_entries]
  | cons p rest ih =>
      obtain ⟨k, v⟩ := p
      intro seen
      by_cases hk1 : keyIs k "path" = true
      · rw [keyIs_true_iff] at hk1
        subst hk1
        cases hpv : is_valid_path_reference v with
        | error e =>
            simp [unwind_entries, keyIs, hpv, allowedUnwindKey]
        | ok u =>
            cases u
            simp [unwind_entries, keyIs, hpv, allowedUnwindKey, ih]
      · by_cases hk2 : keyIs k "includeArrayIndex" = true
        · rw [keyIs_true_iff] at hk2
          subst hk2
          cases hsv : isStr v with
          | true =>
              simp [unwind_entries, keyIs, is_valid_path, hsv,
                allowedUnwindKey, ih]
          | false =>
              simp [unwind_entries, keyIs, is_valid_path, hsv,
                allowedUnwindKey]
        · by_cases hk3 : keyIs k "preserveNullAndEmptyArrays" = true
          · rw [keyIs_true_iff] at hk3
            subst hk3
            cases hbv : isBool v with
            | true =>
                simp [unwind_entries, keyIs, hbv, allowedUnwindKey, ih]
            | false =>
                simp [unwind_entries, keyIs, hbv, allowedUnwindKey]
          · simp [unwind_entries, hk1, hk2, hk3, allowedUnwindKey]

/-- When every key is recognised, the per-key value checks pass and no
`path` key occurs, the unwind options loop ends in `MissingPath`. -/
lemma unwind_entries_no_path (entries : List (PyVal × PyVal))
    (hall : ∀ p ∈ entries, allowedUnwindKey p.1 = true)
    (hpath : ∀ p ∈ entries, keyIs p.1 "path" = false)
    (hinc : ∀ p ∈ entries, keyIs p.1 "includeArrayIndex" = true →
      isStr p.2 = true)
    (hpre : ∀ p ∈ entries, keyIs p.1 "preserveNullAndEmptyArrays" = true →
      isBool p.2 = true) :
    unwind_entries entries false = .error .missingPath := by
  induction entries with
  | nil => rfl
  | cons p rest ih =>
      obtain ⟨k, v⟩ := p
      have hk1 : keyIs k "path" = false := hpath _ (List.mem_cons_self _ _)
      have ihr := ih (fun q hq => hall q (List.mem_cons_of_mem _ hq))
        (fun q hq => hpath q (List.mem_cons_of_mem _ hq))
        (fun q hq => hinc q (List.mem_cons_of_mem _ hq))
        (fun q hq => hpre q (List.mem_cons_of_mem _ hq))
      by_cases hk2 : keyIs k "includeArrayIndex" = true
      · rw [keyIs_true_iff] at hk2
        subst hk2
        have hsv : isStr v = true :=
          hinc _ (List.mem_cons_self _ _) (by simp [keyIs])
        simpa [unwind_entries, keyIs, is_valid_path, hsv] using ihr
      · by_cases hk3 : keyIs k "preserveNullAndEmptyArrays" = true
        · rw [keyIs_true_iff] at hk3
          subst hk3
          have hbv : isBool v = true :=
            hpre _ (List.mem_cons_self _ _) (by simp [keyIs])
          simpa [unwind_entries, keyIs, hbv] using ihr
        · have := hall _ (List.mem_cons_self _ _)
          simp [allowedUnwindKey, hk1, hk2, hk3] at this

/-- The Unwind-Expression Validator accepts an options mapping iff
every key is one of the three recognised option keys, a `path` key is
present, every `path` value is a valid path reference, every
`includeArrayIndex` value is a string, and every
`preserveNullAndEmptyArrays` value is a boolean. -/
lemma unwind_dict_ok_iff (entries : List (PyVal × PyVal)) :
    is_valid_unwind_expression (.dict entries) = .ok () ↔
      ((∀ p ∈ entries, allowedUnwindKey p.1 = true) ∧
       (∃ p ∈ entries, keyIs p.1 "path" = true) ∧
       (∀ p ∈ entries, keyIs p.1 "path" = true →
          is_valid_path_reference p.2 = .ok ()) ∧
       (∀ p ∈ entries, keyIs p.1 "includeArrayIndex" = true →
          isStr p.2 = true) ∧
       (∀ p ∈ entries, keyIs p.1 "preserveNullAndEmptyArrays" = true →
          isBool p.2 = true)) := by
  simpa using unwind_entries_ok_iff entries false

/-- C8: for a mapping operand of an unwind stage, validation succeeds
iff all keys lie in {path, includeArrayIndex, preserveNullAndEmptyArrays},
`path` is present with a valid path-reference value, every
`includeArrayIndex` value is a string and every
`preserveNullAndEmptyArrays` value is a boolean; any unrecognised key
makes validation fail; when all checks pass but `path` is absent the
error is `MissingPath`; in particular
{"path": "$tags", "bogus": True} fails with `UnrecognizedOption` and
{"includeArrayIndex": "idx"} fails with `MissingPath`. -/
theorem claim_C8 :
    (∀ entries : List (PyVal × PyVal),
        is_valid_unwind_expression (.dict entries) = .ok () ↔
          ((∀ p ∈ entries, allowedUnwindKey p.1 = true) ∧
           (∃ p ∈ entries, keyIs p.1 "path" = true) ∧
           (∀ p ∈ entries, keyIs p.1 "path" = true →
              is_valid_path_reference p.2 = .ok ()) ∧
           (∀ p ∈ entries, keyIs p.1 "includeArrayIndex" = true →
              isStr p.2 = true) ∧
           (∀ p ∈ entries, keyIs p.1 "preserveNullAndEmptyArrays" = true →
              isBool p.2 = true))) ∧
    (∀ entries : List (PyVal × PyVal),
        (∃ p ∈ entries, allowedUnwindKey p.1 = false) →
        is_valid_unwind_expression (.dict entries) ≠ .ok ()) ∧
    (∀ entries : List (PyVal × PyVal),
        (∀ p ∈ entries, allowedUnwindKey p.1 = true) →
        (∀ p ∈ entries, keyIs p.1 "path" = false) →
        (∀ p ∈ entries, keyIs p.1 "includeArrayIndex" = true →
          isStr p.2 = true) →
        (∀ p ∈ entries, keyIs p.1 "preserveNullAndEmptyArrays" = true →
          isBool p.2 = true) →
        is_valid_unwind_expression (.dict entries) = .error .missingPath) ∧
    is_valid_unwind_expression
        (.dict [(.str "path", .str "$tags"), (.str "bogus", .bool true)]) =
      .error .unrecognizedOption ∧
    is_valid_unwind_expression (.dict [(.str "includeArrayIndex", .str "idx")]) =
      .error .missingPath := by
  refine ⟨unwind_dict_ok_iff, ?_, ?_, rfl, rfl⟩
  · intro entries ⟨p, hp, hpn⟩ hok
    have := ((unwind_dict_ok_iff entries).mp hok).1 p hp
    rw [hpn] at this
    cases this
  · intro entries h1 h2 h3 h4
    exact unwind_entries_no_path entries h1 h2 h3 h4

/-- C8 witness: the failure conjuncts applied to concrete mappings with
an unrecognised key and with a missing path. -/
theorem claim_C8_witness :
    is_valid_unwind_expression (.dict [(.str "bogus", .none)]) ≠ .ok () ∧
    is_valid_unwind_expression
        (.dict [(.str "preserveNullAndEmptyArrays", .bool false)]) =
      .error .missingPath :=
  ⟨claim_C8.2.1 _ ⟨(.str "bogus", .none), List.mem_cons_self _ _, by decide⟩,
   claim_C8.2.2.1 _ (by decide) (by decide) (by decide) (by decide)⟩

/-- An inclusion flag is never an exclusion flag. -/
lemma not_zero_of_one (v : PyVal) (h : isOneOrTrue v = true) :
    isZeroOrFalse v = false := by
  cases v <;> simp_all [isOneOrTrue, isZeroOrFalse]

/-- Once the exclusion flag is set, reaching an inclusion flag on a
later non-`_id` entry raises `MixedProjectionMode`, whatever
well-formed entries lie in between. -/
lemma proj_entries_after_excl (ps : List (PyVal × PyVal)) :
    ∀ (g : String) (iv : PyVal) (post : List (PyVal × PyVal)),
      (∀ p ∈ ps, cleanProjEntry p = true) → g ≠ "_id" →
      isOneOrTrue iv = true →
      projection_entries (ps ++ (.str g, iv) :: post) true =
        .error .mixedProjectionMode := by
  induction ps with
  | nil =>
      intro g iv post _ hg hiv
      simp [projection_entries, is_valid_path, isStr,
        keyIs_str_false g "_id" hg, not_zero_of_one iv hiv, hiv]
  | cons p rest ih =>
      intro g iv post hclean hg hiv
      obtain ⟨k, v⟩ := p
      have hc := hclean (k, v) (List.mem_cons_self _ _)
      simp only [cleanProjEntry] at hc
      have hstr : isStr k = true := by
        cases hb : isStr k <;> simp [hb] at hc ⊢
      have ihr := ih g iv post
        (fun q hq => hclean q (List.mem_cons_of_mem _ hq)) hg hiv
      by_cases hid : keyIs k "_id" = true
      · have hzv : isZeroOrFalse v = true := by
          simpa [hid, hstr] using hc
        simpa [projection_entries, is_valid_path, hstr, hid, hzv] using ihr
      · rw [Bool.not_eq_true] at hid
        by_cases hz : isZeroOrFalse v = true
        · simpa [projection_entries, is_valid_path, hstr, hid, hz] using ihr
        · rw [Bool.not_eq_true] at hz
          by_cases ho : isOneOrTrue v = true
          · simp [projection_entries, is_valid_path, hstr, hid, hz, ho]
          · rw [Bool.not_eq_true] at ho
            simpa [projection_entries, is_valid_path, hstr, hid, hz, ho,
              is_valid_value_definition] using ihr

/-- An exclusion flag on a non-`_id` entry followed anywhere later by
an inclusion flag on a non-`_id` entry makes the projection loop fail
with `MixedProjectionMode`, whatever the initial flag state. -/
lemma proj_entries_mixed (pre : List (PyVal × PyVal)) :
    ∀ (b : Bool) (f : String) (ev : PyVal) (mid : List (PyVal × PyVal))
      (g : String) (iv : PyVal) (post : List (PyVal × PyVal)),
      (∀ p ∈ pre, cleanProjEntry p = true) →
      (∀ p ∈ mid, cleanProjEntry p = true) →
      f ≠ "_id" → g ≠ "_id" →
      isZeroOrFalse ev = true → isOneOrTrue iv = true →
      projection_entries (pre ++ (.str f, ev) :: mid ++ (.str g, iv) :: post)
          b = .error .mixedProjectionMode := by
  induction pre with
  | nil =>
      intro b f ev mid g iv post _ hmid hf hg hev hiv
      have := proj_entries_after_excl mid g iv post hmid hg hiv
      simpa [projection_entries, is_valid_path, isStr,
        keyIs_str_false f "_id" hf, hev] using this
  | cons p rest ih =>
      intro b f ev mid g iv post hclean hmid hf hg hev hiv
      obtain ⟨k, v⟩ := p
      have hc := hclean (k, v) (List.mem_cons_self _ _)
      simp only [cleanProjEntry] at hc
      have hstr : isStr k = true := by
        cases hb : isStr k <;> simp [hb] at hc ⊢
      have ihr := fun b =>
        ih b f ev mid g iv post
          (fun q hq => hclean q (List.mem_cons_of_mem _ hq)) hmid hf hg hev hiv
      by_cases hid : keyIs k "_id" = true
      · have hzv : isZeroOrFalse v = true := by
          simpa [hid, hstr] using hc
        simpa [projection_entries, is_valid_path, hstr, hid, hzv] using ihr b
      · rw [Bool.not_eq_true] at hid
        by_cases hz : isZeroOrFalse v = true
        · simpa [projection_entries, is_valid_path, hstr, hid, hz]
            using ihr true
        · rw [Bool.not_eq_true] at hz
          by_cases ho : isOneOrTrue v = true
          · cases b with
            | true =>
                simp [projection_entries, is_valid_path, hstr, hid, hz, ho]
            | false =>
                simpa [projection_entries, is_valid_path, hstr, hid, hz, ho]
                  using ihr false
          · rw [Bool.not_eq_true] at ho
            simpa [projection_entries, is_valid_path, hstr, hid, hz, ho,
              is_valid_value_definition] using ihr b

/-- Acceptance side of the projection loop: when every entry passes the
per-entry checks and no non-`_id` exclusion entry is followed (anywhere
later) by a non-`_id` inclusion entry, the loop succeeds — provided
that, whenever the exclusion flag starts set, no non-`_id` inclusion
entry occurs at all. -/
lemma proj_entries_ok_of_ordered (entries : List (PyVal × PyVal)) :
    ∀ b : Bool,
      (∀ p ∈ entries, cleanProjEntry p = true) →
      (b = true → ∀ p ∈ entries, keyIs p.1 "_id" = false →
        isOneOrTrue p.2 = false) →
      (∀ (pre mid post : List (PyVal × PyVal)) (f g ev iv : PyVal),
        entries = pre ++ (f, ev) :: mid ++ (g, iv) :: post →
        keyIs f "_id" = false → keyIs g "_id" = false →
        isZeroOrFalse ev = true → isOneOrTrue iv = true → False) →
      projection_entries entries b = .ok () := by
  induction entries with
  | nil => intro b _ _ _; rfl
  | cons p rest ih =>
      obtain ⟨k, v⟩ := p
      intro b hclean hflag hord
      have hc := hclean (k, v) (List.mem_cons_self _ _)
      simp only [cleanProjEntry] at hc
      have hstr : isStr k = true := by
        cases hb : isStr k <;> simp [hb] at hc ⊢
      have hcleanr : ∀ p ∈ rest, cleanProjEntry p = true :=
        fun q hq => hclean q (List.mem_cons_of_mem _ hq)
      have hordr : ∀ (pre mid post : List (PyVal × PyVal)) (f g ev iv : PyVal),
          rest = pre ++ (f, ev) :: mid ++ (g, iv) :: post →
          keyIs f "_id" = false → keyIs g "_id" = false →
          isZeroOrFalse ev = true → isOneOrTrue iv = true → False := by
        intro pre mid post f g ev iv heq hf hg hev hiv
        exact hord ((k, v) :: pre) mid post f g ev iv (by rw [heq]; rfl)
          hf hg hev hiv
      by_cases hid : keyIs k "_id" = true
      · have hzv : isZeroOrFalse v = true := by simpa [hid, hstr] using hc
        have hr : projection_entries rest b = .ok () :=
          ih b hcleanr
            (fun hb q hq => hflag hb q (List.mem_cons_of_mem _ hq)) hordr
        simpa [projection_entries, is_valid_path, hstr, hid, hzv] using hr
      · rw [Bool.not_eq_true] at hid
        by_cases hz : isZeroOrFalse v = true
        · have hnoincl : ∀ q ∈ rest, keyIs q.1 "_id" = false →
              isOneOrTrue q.2 = false := by
            intro q hq hqid
            by_contra hone
            rw [Bool.not_eq_false] at hone
            obtain ⟨mid, post, hsplit⟩ := List.append_of_mem hq
            exact hord [] mid post k q.1 v q.2 (by rw [hsplit]; rfl)
              hid hqid hz hone
          have hr : projection_entries rest true = .ok () :=
            ih true hcleanr (fun _ => hnoincl) hordr
          simpa [projection_entries, is_valid_path, hstr, hid, hz] using hr
        · rw [Bool.not_eq_true] at hz
          by_cases ho : isOneOrTrue v = true
          · have hbf : b = false := by
              cases hb : b
              · rfl
              · have hcontra := hflag hb (k, v) (List.mem_cons_self _ _) hid
                rw [ho] at hcontra
                cases hcontra
            subst hbf
            have hr : projection_entries rest false = .ok () :=
              ih false hcleanr (fun hb => nomatch hb) hordr
            simpa [projection_entries, is_valid_path, hstr, hid, hz, ho]
              using hr
          · rw [Bool.not_eq_true] at ho
            have hr : projection_entries rest b = .ok () :=
              ih b hcleanr
                (fun hb q hq => hflag hb q (List.mem_cons_of_mem _ hq)) hordr
            simpa [projection_entries, is_valid_path, hstr, hid, hz, ho,
              is_valid_value_definition] using hr

/-- C1 counterexample: the claim (and the spec's own example) say
`validate_projection({"_id": 0, "name": 1, "email": 0})` fails with
`MixedProjectionMode`; the code tracks only whether an exclusion flag
was already seen and rejects a LATER inclusion, so this mapping — whose
exclusion comes after the inclusion — is accepted. -/
theorem claim_C1_cex :
    is_valid_projection
        (.dict [(.str "_id", .int 0), (.str "name", .int 1),
                (.str "email", .int 0)]) = .ok () := rfl

/-- C1 (amended): for projection mappings whose entries pass the
per-entry checks (string keys; `_id` only with an exclusion value), the
Projection Validator fails — and then with `MixedProjectionMode` —
exactly when some non-`_id` exclusion entry (0/False) is followed,
anywhere later, by a non-`_id` inclusion entry (1/True); every such
mapping without an exclusion-before-inclusion pair is accepted, so the
reverse order is accepted and the spec's example
`{"_id": 0, "name": 1, "email": 0}` succeeds. -/
theorem claim_C1 :
    (∀ (pre mid post : List (PyVal × PyVal)) (f g : String) (ev iv : PyVal),
        (∀ p ∈ pre, cleanProjEntry p = true) →
        (∀ p ∈ mid, cleanProjEntry p = true) →
        f ≠ "_id" → g ≠ "_id" →
        isZeroOrFalse ev = true → isOneOrTrue iv = true →
        is_valid_projection
            (.dict (pre ++ (.str f, ev) :: mid ++ (.str g, iv) :: post)) =
          .error .mixedProjectionMode) ∧
    (∀ entries : List (PyVal × PyVal),
        (∀ p ∈ entries, cleanProjEntry p = true) →
        (∀ (pre mid post : List (PyVal × PyVal)) (f g ev iv : PyVal),
          entries = pre ++ (f, ev) :: mid ++ (g, iv) :: post →
          keyIs f "_id" = false → keyIs g "_id" = false →
          isZeroOrFalse ev = true → isOneOrTrue iv = true → False) →
        is_valid_projection (.dict entries) = .ok ()) ∧
    (∀ entries : List (PyVal × PyVal),
        (∀ p ∈ entries, cleanProjEntry p = true) →
        (is_valid_projection (.dict entries) = .error .mixedProjectionMode ↔
          ∃ (pre mid post : List (PyVal × PyVal)) (f g ev iv : PyVal),
            entries = pre ++ (f, ev) :: mid ++ (g, iv) :: post ∧
            keyIs f "_id" = false ∧ keyIs g "_id" = false ∧
            isZeroOrFalse ev = true ∧ isOneOrTrue iv = true)) := by
  have hmixed : ∀ (pre mid post : List (PyVal × PyVal)) (f g : String)
      (ev iv : PyVal),
      (∀ p ∈ pre, cleanProjEntry p = true) →
      (∀ p ∈ mid, cleanProjEntry p = true) →
      f ≠ "_id" → g ≠ "_id" →
      isZeroOrFalse ev = true → isOneOrTrue iv = true →
      is_valid_projection
          (.dict (pre ++ (.str f, ev) :: mid ++ (.str g, iv) :: post)) =
        .error .mixedProjectionMode :=
    fun pre mid post f g ev iv hpre hmid hf hg hev hiv =>
      proj_entries_mixed pre false f ev mid g iv post hpre hmid hf hg hev hiv
  have hok : ∀ entries : List (PyVal × PyVal),
      (∀ p ∈ entries, cleanProjEntry p = true) →
      (∀ (pre mid post : List (PyVal × PyVal)) (f g ev iv : PyVal),
        entries = pre ++ (f, ev) :: mid ++ (g, iv) :: post →
        keyIs f "_id" = false → keyIs g "_id" = false →
        isZeroOrFalse ev = true → isOneOrTrue iv = true → False) →
      is_valid_projection (.dict entries) = .ok () :=
    fun entries hclean hord =>
      proj_entries_ok_of_ordered entries false hclean
        (fun hb => nomatch hb) hord
  refine ⟨hmixed, hok, ?_⟩
  intro entries hclean
  constructor
  · intro herr
    by_contra hgoal
    have hord : ∀ (pre mid post : List (PyVal × PyVal)) (f g ev iv : PyVal),
        entries = pre ++ (f, ev) :: mid ++ (g, iv) :: post →
        keyIs f "_id" = false → keyIs g "_id" = false →
        isZeroOrFalse ev = true → isOneOrTrue iv = true → False := by
      intro pre mid post f g ev iv heq hf hg hev hiv
      exact hgoal ⟨pre, mid, post, f, g, ev, iv, heq, hf, hg, hev, hiv⟩
    have := hok entries hclean hord
    rw [this] at herr
    simp at herr
  · rintro ⟨pre, mid, post, f, g, ev, iv, heq, hf, hg, hev, hiv⟩
    subst heq
    have hmem1 : (f, ev) ∈ pre ++ (f, ev) :: mid ++ (g, iv) :: post :=
      List.mem_append_left _
        (List.mem_append_right pre (List.mem_cons_self _ _))
    have hmem2 : (g, iv) ∈ pre ++ (f, ev) :: mid ++ (g, iv) :: post :=
      List.mem_append_right _ (List.mem_cons_self _ _)
    obtain ⟨s, rfl⟩ : ∃ s, f = .str s := by
      cases f <;> first
        | exact ⟨_, rfl⟩
        | (exfalso; have := hclean _ hmem1
           simp [cleanProjEntry, isStr] at this)
    obtain ⟨t, rfl⟩ : ∃ t, g = .str t := by
      cases g <;> first
        | exact ⟨_, rfl⟩
        | (exfalso; have := hclean _ hmem2
           simp [cleanProjEntry, isStr] at this)
    have hs : s ≠ "_id" := by
      intro h; subst h; simp [keyIs] at hf
    have ht : t ≠ "_id" := by
      intro h; subst h; simp [keyIs] at hg
    exact hmixed pre mid post s t ev iv
      (fun q hq => hclean q
        (List.mem_append_left _ (List.mem_append_left _ hq)))
      (fun q hq => hclean q
        (List.mem_append_left _ (List.mem_append_right pre
          (List.mem_cons_of_mem _ hq))))
      hs ht hev hiv

/-- C1 witness: exclusion-then-inclusion on two non-`_id` fields is
rejected with `MixedProjectionMode`; an inclusion-only mapping is
accepted via the general acceptance conjunct; and the characterising
iff produces the mixed error at a three-entry mapping with a
value-definition between the flags. -/
theorem claim_C1_witness :
    is_valid_projection (.dict [(.str "a", .int 0), (.str "b", .int 1)]) =
      .error .mixedProjectionMode ∧
    is_valid_projection
        (.dict [(.str "a", .int 1), (.str "b", .int 1)]) = .ok () ∧
    is_valid_projection
        (.dict [(.str "x", .int 0), (.str "z", .int 5), (.str "y", .int 1)]) =
      .error .mixedProjectionMode :=
  ⟨claim_C1.1 [] [] [] "a" "b" (.int 0) (.int 1) (by decide) (by decide)
      (by decide) (by decide) (by decide) (by decide),
   claim_C1.2.1 [(.str "a", .int 1), (.str "b", .int 1)] (by decide)
     (by
       intro pre mid post f g ev iv heq hf hg hev hiv
       have hmem : (f, ev) ∈
           [((.str "a" : PyVal), (.int 1 : PyVal)), (.str "b", .int 1)] := by
         rw [heq]
         exact List.mem_append_left _
           (List.mem_append_right pre (List.mem_cons_self _ _))
       simp at hmem
       rcases hmem with ⟨-, rfl⟩ | ⟨-, rfl⟩ <;>
         simp [isZeroOrFalse] at hev),
   (claim_C1.2.2
       [(.str "x", .int 0), (.str "z", .int 5), (.str "y", .int 1)]
       (by decide)).mpr
     ⟨[], [(.str "z", .int 5)], [], .str "x", .str "y", .int 0, .int 1,
      rfl, by decide, by decide, by decide, by decide⟩⟩

end Aggregreat
